import Mathlib

/-!
# Hot-reload listener (`src/learn_fastapi/src/assets/js/reloadScript.js`)

The script is an immediately-invoked arrow function that

1. constructs `new WebSocket("ws://localhost:8000/hot-reload")`,
2. assigns `ws.onmessage = event => { if (event.data === "reload") location.reload() }`,
3. assigns `ws.onclose = () => { setTimeout(() => location.reload(), 1000) }`.

The embedding has three layers.

* Values and events: `JSValue`, `strictEq`, `MessageEvent`, `CloseEvent`.
* The script itself: `onmessage`, `onclose` and `script`, translated line by line.
  A handler body is a function from its event to the list of host calls it makes,
  in program order (`Call`).
* The host (browser) the script runs in: `Host`, with a clock, the connection objects,
  the pending timers and a log of every host call; `step` is one turn of the event loop.
  `location.reload()` is recorded in the log and does not end the run.
-/

namespace ReloadScript

/-! ## Values -/

/-- JavaScript values that can reach `event.data`. Text frames arrive as primitive strings,
binary frames as `Blob` or `ArrayBuffer` objects (here: an object reference). The remaining
primitives are included so that a synthetic event can carry them. Numbers are restricted to
integral values. -/
inductive JSValue where
  | undefined
  | null
  | boolean (b : Bool)
  | number (n : Int)
  | string (s : String)
  | object (ref : Nat)
  deriving DecidableEq, Repr

/-- The strict equality operator `===`: operands of different types are never equal,
primitives of the same type are compared by value, objects by reference. -/
def strictEq : JSValue → JSValue → Bool
  | .undefined, .undefined => true
  | .null, .null => true
  | .boolean a, .boolean b => a == b
  | .number a, .number b => a == b
  | .string a, .string b => a == b
  | .object a, .object b => a == b
  | _, _ => false

/-- The argument of a `message` handler. -/
structure MessageEvent where
  data : JSValue
  origin : String
  lastEventId : String
  deriving DecidableEq, Repr

/-- The argument of a `close` handler. -/
structure CloseEvent where
  code : Nat
  reason : String
  wasClean : Bool
  deriving DecidableEq, Repr

/-! ## Host calls -/

/-- A call from script code into the host. `setTimeout` carries the body of its callback. -/
inductive Call where
  | reload
  | setTimeout (callback : List Call) (delay : Nat)
  | send (data : JSValue)
  | close

/-- Is the call `location.reload()`? -/
def Call.isReload : Call → Bool
  | .reload => true
  | _ => false

/-- Is the call a `setTimeout`? -/
def Call.isSetTimeout : Call → Bool
  | .setTimeout _ _ => true
  | _ => false

/-- Is the call `ws.send(..)`? -/
def Call.isSend : Call → Bool
  | .send _ => true
  | _ => false

/-- Is the call `ws.close()`? -/
def Call.isClose : Call → Bool
  | .close => true
  | _ => false

/-- A connection object: its URL and its four event-handler slots. -/
structure WebSocket where
  url : String
  onopen : Option (Unit → List Call)
  onmessage : Option (MessageEvent → List Call)
  onerror : Option (Unit → List Call)
  onclose : Option (CloseEvent → List Call)

/-- The constructor `new WebSocket(url)`: every handler slot starts empty. -/
def WebSocket.new (url : String) : WebSocket :=
  { url := url, onopen := none, onmessage := none, onerror := none, onclose := none }

/-! ## The script -/

/-- Line 2: the endpoint literal. -/
def url : String := "ws://localhost:8000/hot-reload"

/-- Lines 3-5: `event => { if (event.data === "reload") location.reload() }`. -/
def onmessage (event : MessageEvent) : List Call :=
  if strictEq event.data (JSValue.string "reload") then [Call.reload] else []

/-- Line 7: the timer callback `() => location.reload()`. -/
def timerCallback : List Call := [Call.reload]

/-- Lines 6-8: `() => { setTimeout(() => location.reload(), 1000) }`.
The arrow function declares no parameter, so the close event is dropped. -/
def onclose (_event : CloseEvent) : List Call :=
  [Call.setTimeout timerCallback 1000]

/-- Lines 2-8, the connection object as the function body leaves it. -/
def ws : WebSocket :=
  let ws0 := WebSocket.new url
  let ws1 := { ws0 with onmessage := some onmessage }
  { ws1 with onclose := some onclose }

/-! ## The host -/

/-- The task in which a host call is made: an event handler, a timer callback
(with the time its timer was set), or the top level of the script. -/
inductive Origin where
  | handler
  | timer (scheduledAt : Nat)
  | toplevel
  deriving DecidableEq, Repr

/-- A timer set by `setTimeout`. -/
structure Timer where
  callback : List Call
  delay : Nat
  scheduledAt : Nat

/-- One recorded invocation of `location.reload()`. -/
structure ReloadRecord where
  time : Nat
  origin : Origin
  deriving DecidableEq, Repr

/-- Host state. `timers` are the pending timers; `scheduled` records every timer ever set;
`reloads`, `sent` and `closeCalls` record the calls made so far. -/
structure Host where
  now : Nat
  sockets : List WebSocket
  timers : List Timer
  scheduled : List Timer
  reloads : List ReloadRecord
  sent : List JSValue
  closeCalls : Nat

/-- A freshly loaded page, before any script has run. -/
def Host.init : Host :=
  { now := 0, sockets := [], timers := [], scheduled := [], reloads := [], sent := [],
    closeCalls := 0 }

/-- Lines 1-9: running the script registers the one connection object with the host. -/
def script (h : Host) : Host :=
  { h with sockets := h.sockets ++ [ws] }

/-- The host executes one call made from a task of the given origin. -/
def execCall (o : Origin) (h : Host) : Call → Host
  | .reload => { h with reloads := h.reloads ++ [{ time := h.now, origin := o }] }
  | .setTimeout cb d =>
      { h with
        timers := h.timers ++ [{ callback := cb, delay := d, scheduledAt := h.now }]
        scheduled := h.scheduled ++ [{ callback := cb, delay := d, scheduledAt := h.now }] }
  | .send v => { h with sent := h.sent ++ [v] }
  | .close => { h with closeCalls := h.closeCalls + 1 }

/-- The host executes the calls of one task in order. -/
def exec (o : Origin) (h : Host) (cs : List Call) : Host :=
  cs.foldl (execCall o) h

/-- Events the runtime delivers to a connection object. -/
inductive SocketEvent where
  | opened
  | message (ev : MessageEvent)
  | error
  | closed (ev : CloseEvent)
  deriving DecidableEq, Repr

/-- The calls made when an event is dispatched to a connection object: the body of the
handler in the matching slot, or nothing when the slot is empty. -/
def dispatch (w : WebSocket) : SocketEvent → List Call
  | .opened => match w.onopen with
      | some f => f ()
      | none => []
  | .message ev => match w.onmessage with
      | some f => f ev
      | none => []
  | .error => match w.onerror with
      | some f => f ()
      | none => []
  | .closed ev => match w.onclose with
      | some f => f ev
      | none => []

/-- One turn of the event loop: an event is delivered to connection object number `sock`,
time passes, or the host runs pending timer number `i`. -/
inductive Input where
  | deliver (sock : Nat) (e : SocketEvent)
  | advance (ms : Nat)
  | fire (i : Nat)
  deriving DecidableEq, Repr

/-- The event loop. A timer runs only once its delay has elapsed; asking for a timer that
does not exist or is not yet due, or delivering to a connection that does not exist,
changes nothing. -/
def step (h : Host) : Input → Host
  | .deliver sock e =>
      match h.sockets.get? sock with
      | some w => exec Origin.handler h (dispatch w e)
      | none => h
  | .advance ms => { h with now := h.now + ms }
  | .fire i =>
      match h.timers.get? i with
      | some t =>
          if t.scheduledAt + t.delay ≤ h.now then
            exec (Origin.timer t.scheduledAt) { h with timers := h.timers.eraseIdx i } t.callback
          else h
      | none => h

/-- Run the event loop over a finite trace. -/
def run (h : Host) (trace : List Input) : Host :=
  trace.foldl step h

/-- The page right after the script has run. -/
def loaded : Host := script Host.init

/-! ## Trace observations -/

/-- A `message` event for the script's connection whose data is `"reload"`. -/
def Input.isReloadMessage : Input → Bool
  | .deliver 0 (.message ev) => strictEq ev.data (JSValue.string "reload")
  | _ => false

/-- A `close` event for the script's connection. -/
def Input.isClosed : Input → Bool
  | .deliver 0 (.closed _) => true
  | _ => false

/-- Reloads invoked directly by an event handler. -/
def immediateReloads (h : Host) : Nat :=
  (h.reloads.filter (fun r => r.origin == Origin.handler)).length

/-- The names of the handler slots of a connection object that hold a function. -/
def WebSocket.installed (w : WebSocket) : List String :=
  (if w.onopen.isSome then ["onopen"] else []) ++
  (if w.onmessage.isSome then ["onmessage"] else []) ++
  (if w.onerror.isSome then ["onerror"] else []) ++
  (if w.onclose.isSome then ["onclose"] else [])

/-- The invariant of the host states the loaded page can reach: the one connection object
is the script's, every timer ever set is the close handler's, every reload made by a timer
callback comes at least 1000 ms after that timer was set, and the script has neither sent
data nor closed the connection. -/
structure Inv (h : Host) : Prop where
  sockets : h.sockets = [ws]
  timers : ∀ t ∈ h.timers, t.callback = timerCallback ∧ t.delay = 1000
  scheduled : ∀ t ∈ h.scheduled, t.callback = timerCallback ∧ t.delay = 1000
  reloads : ∀ r ∈ h.reloads, ∀ s : Nat, r.origin = Origin.timer s → s + 1000 ≤ r.time
  sent : h.sent = []
  closeCalls : h.closeCalls = 0

/-! ## Basic facts about the host -/

theorem exec_nil (o : Origin) (h : Host) : exec o h [] = h := rfl

theorem exec_cons (o : Origin) (h : Host) (c : Call) (cs : List Call) :
    exec o h (c :: cs) = exec o (execCall o h c) cs := rfl

theorem dispatch_ws_opened : dispatch ws SocketEvent.opened = [] := rfl

theorem dispatch_ws_error : dispatch ws SocketEvent.error = [] := rfl

theorem dispatch_ws_message (ev : MessageEvent) :
    dispatch ws (SocketEvent.message ev) = onmessage ev := rfl

theorem dispatch_ws_closed (ev : CloseEvent) :
    dispatch ws (SocketEvent.closed ev) = onclose ev := rfl

theorem onmessage_eq_reload (ev : MessageEvent) (hd : ev.data = JSValue.string "reload") :
    onmessage ev = [Call.reload] := by
  simp [onmessage, hd, strictEq]

theorem strictEq_string_iff (v : JSValue) (s : String) :
    strictEq v (JSValue.string s) = true ↔ v = JSValue.string s := by
  cases v <;> simp [strictEq]

theorem onmessage_eq_nil (ev : MessageEvent) (hd : ev.data ≠ JSValue.string "reload") :
    onmessage ev = [] := by
  have hne : strictEq ev.data (JSValue.string "reload") = false := by
    cases hs : strictEq ev.data (JSValue.string "reload") with
    | false => rfl
    | true => exact absurd ((strictEq_string_iff _ _).1 hs) hd
  simp [onmessage, hne]

theorem execCall_sockets (o : Origin) (h : Host) (c : Call) :
    (execCall o h c).sockets = h.sockets := by
  cases c <;> rfl

theorem exec_sockets (o : Origin) (cs : List Call) :
    ∀ h : Host, (exec o h cs).sockets = h.sockets := by
  induction cs with
  | nil => intro h; rfl
  | cons c cs ih => intro h; rw [exec_cons, ih, execCall_sockets]

theorem step_sockets (h : Host) (x : Input) : (step h x).sockets = h.sockets := by
  cases x with
  | deliver sock e =>
      simp only [step]
      cases h.sockets.get? sock with
      | none => rfl
      | some w => exact exec_sockets _ _ _
  | advance ms => rfl
  | fire i =>
      simp only [step]
      cases h.timers.get? i with
      | none => rfl
      | some t =>
          simp only []
          split
          · rw [exec_sockets]
          · rfl

theorem run_nil (h : Host) : run h [] = h := rfl

theorem run_cons (h : Host) (x : Input) (xs : List Input) :
    run h (x :: xs) = run (step h x) xs := rfl

theorem run_append (h : Host) (xs ys : List Input) :
    run h (xs ++ ys) = run (run h xs) ys := by
  simp [run, List.foldl_append]

theorem run_sockets (xs : List Input) : ∀ h : Host, (run h xs).sockets = h.sockets := by
  induction xs with
  | nil => intro h; rfl
  | cons x xs ih => intro h; rw [run_cons, ih, step_sockets]

theorem loaded_sockets : loaded.sockets = [ws] := rfl

theorem step_deliver_zero (h : Host) (hs : h.sockets = [ws]) (e : SocketEvent) :
    step h (Input.deliver 0 e) = exec Origin.handler h (dispatch ws e) := by
  simp [step, hs]

theorem step_deliver_succ (h : Host) (hs : h.sockets = [ws]) (n : Nat) (e : SocketEvent) :
    step h (Input.deliver (n + 1) e) = h := by
  simp [step, hs]

/-! ## The invariant -/

theorem inv_loaded : Inv loaded where
  sockets := rfl
  timers := by intro t ht; cases ht
  scheduled := by intro t ht; cases ht
  reloads := by intro r hr; cases hr
  sent := rfl
  closeCalls := rfl

theorem inv_exec_reload_handler (h : Host) (hi : Inv h) :
    Inv (exec Origin.handler h [Call.reload]) where
  sockets := hi.sockets
  timers := hi.timers
  scheduled := hi.scheduled
  reloads := by
    intro r hr s hs
    rcases List.mem_append.1 hr with hr | hr
    · exact hi.reloads r hr s hs
    · rw [List.mem_singleton] at hr
      subst hr
      cases hs
  sent := hi.sent
  closeCalls := hi.closeCalls

theorem inv_exec_onclose (h : Host) (hi : Inv h) (ev : CloseEvent) :
    Inv (exec Origin.handler h (onclose ev)) where
  sockets := hi.sockets
  timers := by
    intro t ht
    rcases List.mem_append.1 ht with ht | ht
    · exact hi.timers t ht
    · rw [List.mem_singleton] at ht
      subst ht
      exact ⟨rfl, rfl⟩
  scheduled := by
    intro t ht
    rcases List.mem_append.1 ht with ht | ht
    · exact hi.scheduled t ht
    · rw [List.mem_singleton] at ht
      subst ht
      exact ⟨rfl, rfl⟩
  reloads := hi.reloads
  sent := hi.sent
  closeCalls := hi.closeCalls

theorem inv_exec_onmessage (h : Host) (hi : Inv h) (ev : MessageEvent) :
    Inv (exec Origin.handler h (onmessage ev)) := by
  by_cases hd : ev.data = JSValue.string "reload"
  · rw [onmessage_eq_reload ev hd]
    exact inv_exec_reload_handler h hi
  · rw [onmessage_eq_nil ev hd]
    exact hi

theorem inv_advance (h : Host) (hi : Inv h) (ms : Nat) : Inv (step h (Input.advance ms)) where
  sockets := hi.sockets
  timers := hi.timers
  scheduled := hi.scheduled
  reloads := hi.reloads
  sent := hi.sent
  closeCalls := hi.closeCalls

/-- Under the invariant, running pending timer `i` either changes nothing or removes that
timer and records one reload, made at least 1000 ms after the timer was set. -/
theorem step_fire (h : Host) (hi : Inv h) (i : Nat) :
    step h (Input.fire i) = h ∨
    ∃ t : Timer, h.timers.get? i = some t ∧ t.scheduledAt + 1000 ≤ h.now ∧
      step h (Input.fire i) =
        { h with
          timers := h.timers.eraseIdx i
          reloads := h.reloads ++ [{ time := h.now, origin := Origin.timer t.scheduledAt }] } := by
  cases hg : h.timers.get? i with
  | none => left; simp only [step, hg]
  | some t =>
      obtain ⟨hcb, hd⟩ := hi.timers t (List.get?_mem hg)
      by_cases hdue : t.scheduledAt + t.delay ≤ h.now
      · right
        refine ⟨t, rfl, by omega, ?_⟩
        simp only [step, hg, if_pos hdue, hcb]
        rfl
      · left
        simp only [step, hg, if_neg hdue]

theorem inv_fire (h : Host) (hi : Inv h) (i : Nat) : Inv (step h (Input.fire i)) := by
  rcases step_fire h hi i with he | ⟨t, _, hdue, he⟩
  · rw [he]; exact hi
  · rw [he]
    exact
      { sockets := hi.sockets
        timers := fun t ht => hi.timers t (List.mem_of_mem_eraseIdx ht)
        scheduled := hi.scheduled
        reloads := by
          intro r hr s hs
          rcases List.mem_append.1 hr with hr | hr
          · exact hi.reloads r hr s hs
          · rw [List.mem_singleton] at hr
            subst hr
            cases hs
            exact hdue
        sent := hi.sent
        closeCalls := hi.closeCalls }

theorem inv_step (h : Host) (hi : Inv h) (x : Input) : Inv (step h x) := by
  cases x with
  | deliver sock e =>
      cases sock with
      | zero =>
          rw [step_deliver_zero h hi.sockets]
          cases e with
          | opened => exact hi
          | message ev => exact inv_exec_onmessage h hi ev
          | error => exact hi
          | closed ev => exact inv_exec_onclose h hi ev
      | succ n => rw [step_deliver_succ h hi.sockets]; exact hi
  | advance ms => exact inv_advance h hi ms
  | fire i => exact inv_fire h hi i

theorem inv_run (xs : List Input) : ∀ h : Host, Inv h → Inv (run h xs) := by
  induction xs with
  | nil => intro h hi; exact hi
  | cons x xs ih => intro h hi; exact ih _ (inv_step h hi x)

theorem inv_reachable (trace : List Input) : Inv (run loaded trace) :=
  inv_run trace loaded inv_loaded

/-! ## Counting along a trace -/

theorem immediateReloads_exec_reload_handler (h : Host) :
    immediateReloads (exec Origin.handler h [Call.reload]) = immediateReloads h + 1 := by
  show ((h.reloads ++ [ReloadRecord.mk h.now Origin.handler]).filter
    (fun r => r.origin == Origin.handler)).length = _
  simp [immediateReloads, List.filter_append]

theorem isReloadMessage_deliver_zero_message (ev : MessageEvent) :
    (Input.deliver 0 (SocketEvent.message ev)).isReloadMessage
      = strictEq ev.data (JSValue.string "reload") := rfl

theorem strictEq_reload_eq_false (ev : MessageEvent) (hd : ev.data ≠ JSValue.string "reload") :
    strictEq ev.data (JSValue.string "reload") = false := by
  cases hs : strictEq ev.data (JSValue.string "reload") with
  | false => rfl
  | true => exact absurd ((strictEq_string_iff _ _).1 hs) hd

theorem count_step (h : Host) (hi : Inv h) (x : Input) :
    immediateReloads (step h x)
        = immediateReloads h + (if x.isReloadMessage = true then 1 else 0) ∧
      (step h x).scheduled.length
        = h.scheduled.length + (if x.isClosed = true then 1 else 0) := by
  cases x with
  | deliver sock e =>
      cases sock with
      | zero =>
          rw [step_deliver_zero h hi.sockets]
          cases e with
          | opened => exact ⟨rfl, rfl⟩
          | error => exact ⟨rfl, rfl⟩
          | closed ev =>
              refine ⟨rfl, ?_⟩
              show (h.scheduled ++ [_]).length = _
              simp [Input.isClosed]
          | message ev =>
              rw [dispatch_ws_message, isReloadMessage_deliver_zero_message]
              by_cases hd : ev.data = JSValue.string "reload"
              · rw [onmessage_eq_reload ev hd, immediateReloads_exec_reload_handler, hd]
                exact ⟨rfl, rfl⟩
              · rw [onmessage_eq_nil ev hd, strictEq_reload_eq_false ev hd]
                exact ⟨rfl, rfl⟩
      | succ n =>
          rw [step_deliver_succ h hi.sockets]
          exact ⟨rfl, rfl⟩
  | advance ms => exact ⟨rfl, rfl⟩
  | fire i =>
      rcases step_fire h hi i with he | ⟨t, _, _, he⟩
      · rw [he]; exact ⟨rfl, rfl⟩
      · rw [he]
        refine ⟨?_, rfl⟩
        simp [immediateReloads, List.filter_append, Input.isReloadMessage]

theorem count_run (xs : List Input) :
    ∀ h : Host, Inv h →
      immediateReloads (run h xs) = immediateReloads h + xs.countP Input.isReloadMessage ∧
      (run h xs).scheduled.length = h.scheduled.length + xs.countP Input.isClosed := by
  induction xs with
  | nil => intro h _; exact ⟨rfl, rfl⟩
  | cons x xs ih =>
      intro h hi
      obtain ⟨h1, h2⟩ := ih (step h x) (inv_step h hi x)
      obtain ⟨h3, h4⟩ := count_step h hi x
      rw [run_cons, h1, h2, h3, h4, List.countP_cons, List.countP_cons]
      constructor <;> omega

/-! ## Traces without a trigger -/

theorem quiet_step (h : Host) (hi : Inv h) (hr : h.reloads = []) (ht : h.timers = [])
    (x : Input) (hx : x.isReloadMessage = false ∧ x.isClosed = false) :
    (step h x).reloads = [] ∧ (step h x).timers = [] := by
  cases x with
  | deliver sock e =>
      cases sock with
      | zero =>
          rw [step_deliver_zero h hi.sockets]
          cases e with
          | opened => exact ⟨hr, ht⟩
          | error => exact ⟨hr, ht⟩
          | closed ev => exact absurd hx.2 (by simp [Input.isClosed])
          | message ev =>
              rw [dispatch_ws_message]
              have hne : ev.data ≠ JSValue.string "reload" := by
                intro hd
                have := hx.1
                rw [isReloadMessage_deliver_zero_message, hd] at this
                simp [strictEq] at this
              rw [onmessage_eq_nil ev hne]
              exact ⟨hr, ht⟩
      | succ n =>
          rw [step_deliver_succ h hi.sockets]
          exact ⟨hr, ht⟩
  | advance ms => exact ⟨hr, ht⟩
  | fire i =>
      have : step h (Input.fire i) = h := by simp only [step, ht, List.get?_nil]
      rw [this]
      exact ⟨hr, ht⟩

theorem quiet_run (xs : List Input) :
    ∀ h : Host, Inv h → h.reloads = [] → h.timers = [] →
      (∀ x ∈ xs, x.isReloadMessage = false ∧ x.isClosed = false) →
      (run h xs).reloads = [] ∧ (run h xs).timers = [] := by
  induction xs with
  | nil => intro h _ hr ht _; exact ⟨hr, ht⟩
  | cons x xs ih =>
      intro h hi hr ht hq
      obtain ⟨hr1, ht1⟩ := quiet_step h hi hr ht x (hq x (List.mem_cons_self x xs))
      exact ih (step h x) (inv_step h hi x) hr1 ht1
        (fun y hy => hq y (List.mem_cons_of_mem x hy))

/-! ## Concrete runs -/

theorem onmessage_ping : onmessage ⟨JSValue.string "ping", "", ""⟩ = [] := rfl

theorem onmessage_empty : onmessage ⟨JSValue.string "", "", ""⟩ = [] := rfl

theorem onmessage_upper : onmessage ⟨JSValue.string "RELOAD", "", ""⟩ = [] := rfl

theorem onmessage_trailing_blank : onmessage ⟨JSValue.string "reload ", "", ""⟩ = [] := rfl

theorem onmessage_binary : onmessage ⟨JSValue.object 0, "", ""⟩ = [] := rfl

theorem onmessage_literal : onmessage ⟨JSValue.string "reload", "", ""⟩ = [Call.reload] := rfl

/-- A closure at time 0 followed by 999 ms: the timer is still pending and cannot run. -/
theorem run_close_early :
    (run loaded [Input.deliver 0 (SocketEvent.closed ⟨1006, "", false⟩), Input.advance 999,
      Input.fire 0]).reloads = [] ∧
    (run loaded [Input.deliver 0 (SocketEvent.closed ⟨1006, "", false⟩), Input.advance 999,
      Input.fire 0]).timers.length = 1 := by
  decide

/-- A closure at time 0 followed by 1000 ms: the timer runs and reloads once. -/
theorem run_close_due :
    (run loaded [Input.deliver 0 (SocketEvent.closed ⟨1000, "bye", true⟩), Input.advance 1000,
      Input.fire 0]).reloads = [{ time := 1000, origin := Origin.timer 0 }] ∧
    (run loaded [Input.deliver 0 (SocketEvent.closed ⟨1000, "bye", true⟩), Input.advance 1000,
      Input.fire 0]).timers.length = 0 := by
  decide

/-- Two reload messages and an unrelated one: two immediate reloads, at the time of delivery. -/
theorem run_two_messages :
    (run loaded [Input.deliver 0 (SocketEvent.message ⟨JSValue.string "reload", "", ""⟩),
      Input.advance 5, Input.deliver 0 (SocketEvent.message ⟨JSValue.string "ping", "", ""⟩),
      Input.deliver 0 (SocketEvent.message ⟨JSValue.string "reload", "", ""⟩)]).reloads
      = [{ time := 0, origin := Origin.handler }, { time := 5, origin := Origin.handler }] := by
  decide

/-! ## The contract of the script -/

/-- C1: a message event whose data is the string "reload" makes the message handler call the
page reload exactly once and set no timer; delivered to the loaded page after any history,
the reload is recorded at the current time as made by the handler itself, and the pending
and recorded timers are unchanged. -/
theorem C1_onmessage_reload_immediate (event : MessageEvent)
    (hd : event.data = JSValue.string "reload") :
    onmessage event = [Call.reload] ∧
    (onmessage event).countP Call.isReload = 1 ∧
    (onmessage event).countP Call.isSetTimeout = 0 ∧
    ∀ trace : List Input,
      (step (run loaded trace) (Input.deliver 0 (SocketEvent.message event))).reloads
          = (run loaded trace).reloads
              ++ [{ time := (run loaded trace).now, origin := Origin.handler }] ∧
      (step (run loaded trace) (Input.deliver 0 (SocketEvent.message event))).timers
          = (run loaded trace).timers ∧
      (step (run loaded trace) (Input.deliver 0 (SocketEvent.message event))).scheduled
          = (run loaded trace).scheduled := by
  have hm := onmessage_eq_reload event hd
  refine ⟨hm, by rw [hm]; rfl, by rw [hm]; rfl, ?_⟩
  intro trace
  rw [step_deliver_zero _ (inv_reachable trace).sockets, dispatch_ws_message, hm]
  exact ⟨rfl, rfl, rfl⟩

theorem C1_witness :
    (MessageEvent.mk (JSValue.string "reload") "ws://localhost:8000" "").data
        = JSValue.string "reload" ∧
    onmessage (MessageEvent.mk (JSValue.string "reload") "ws://localhost:8000" "")
        = [Call.reload] :=
  ⟨rfl, (C1_onmessage_reload_immediate
    (MessageEvent.mk (JSValue.string "reload") "ws://localhost:8000" "") rfl).1⟩

/-- C2: a message event whose data is anything other than the string "reload" (another
string, or a value that is not a string) makes the message handler do nothing: it makes no
host call, and delivering the event to the loaded page after any history leaves the whole
host state as it was. -/
theorem C2_onmessage_other_ignored (event : MessageEvent)
    (hd : event.data ≠ JSValue.string "reload") :
    onmessage event = [] ∧
    ∀ trace : List Input,
      step (run loaded trace) (Input.deliver 0 (SocketEvent.message event))
        = run loaded trace := by
  have hm := onmessage_eq_nil event hd
  refine ⟨hm, ?_⟩
  intro trace
  rw [step_deliver_zero _ (inv_reachable trace).sockets, dispatch_ws_message, hm]
  rfl

theorem C2_witness :
    (MessageEvent.mk (JSValue.string "RELOAD") "ws://localhost:8000" "").data
        ≠ JSValue.string "reload" ∧
    onmessage (MessageEvent.mk (JSValue.string "RELOAD") "ws://localhost:8000" "") = [] :=
  ⟨by decide, (C2_onmessage_other_ignored
    (MessageEvent.mk (JSValue.string "RELOAD") "ws://localhost:8000" "") (by decide)).1⟩

/-- C3: for every close event the close handler calls no reload itself and sets exactly one
timer, with delay 1000 and a callback that calls the page reload exactly once. Delivered to
the loaded page after any history, the closure leaves the recorded reloads unchanged and
adds one pending timer set at the current time; and however the run continues, every reload
made by a timer callback is recorded at least 1000 ms after its timer was set. -/
theorem C3_onclose_delayed_reload (event : CloseEvent) (trace : List Input) :
    onclose event = [Call.setTimeout [Call.reload] 1000] ∧
    (onclose event).countP Call.isReload = 0 ∧
    (onclose event).countP Call.isSetTimeout = 1 ∧
    [Call.reload].countP Call.isReload = 1 ∧
    (step (run loaded trace) (Input.deliver 0 (SocketEvent.closed event))).reloads
        = (run loaded trace).reloads ∧
    (step (run loaded trace) (Input.deliver 0 (SocketEvent.closed event))).timers
        = (run loaded trace).timers
            ++ [{ callback := [Call.reload], delay := 1000,
                  scheduledAt := (run loaded trace).now }] ∧
    ∀ rest : List Input,
      ∀ r ∈ (run (step (run loaded trace) (Input.deliver 0 (SocketEvent.closed event)))
              rest).reloads,
        ∀ t : Nat, r.origin = Origin.timer t → t + 1000 ≤ r.time := by
  refine ⟨rfl, rfl, rfl, rfl, ?_, ?_, ?_⟩
  · rw [step_deliver_zero _ (inv_reachable trace).sockets]
    rfl
  · rw [step_deliver_zero _ (inv_reachable trace).sockets]
    rfl
  · intro rest
    exact (inv_run rest _ (inv_step _ (inv_reachable trace) _)).reloads

/-- C4: along a trace with no close event and no message whose data is "reload", at every
point of the trace no reload has been invoked and no timer is pending. -/
theorem C4_no_trigger_no_reload (trace : List Input)
    (hq : ∀ x ∈ trace, x.isReloadMessage = false ∧ x.isClosed = false) (n : Nat) :
    (run loaded (trace.take n)).reloads = [] ∧
    (run loaded (trace.take n)).timers = [] ∧
    (run loaded (trace.take n)).scheduled = [] := by
  have hq1 : ∀ x ∈ trace.take n, x.isReloadMessage = false ∧ x.isClosed = false :=
    fun x hx => hq x (List.mem_of_mem_take hx)
  obtain ⟨hr, ht⟩ := quiet_run (trace.take n) loaded inv_loaded rfl rfl hq1
  refine ⟨hr, ht, ?_⟩
  have hc := (count_run (trace.take n) loaded inv_loaded).2
  have hz : (trace.take n).countP Input.isClosed = 0 := by
    rw [List.countP_eq_zero]
    intro x hx
    simp [(hq1 x hx).2]
  rw [hz] at hc
  exact List.length_eq_zero.1 hc

theorem C4_witness :
    (∀ x ∈ [Input.deliver 0 (SocketEvent.message ⟨JSValue.string "ping", "", ""⟩),
            Input.advance 5000, Input.fire 0, Input.deliver 0 SocketEvent.error,
            Input.deliver 0 (SocketEvent.message ⟨JSValue.object 7, "", ""⟩)],
        x.isReloadMessage = false ∧ x.isClosed = false) ∧
    (run loaded (([Input.deliver 0 (SocketEvent.message ⟨JSValue.string "ping", "", ""⟩),
            Input.advance 5000, Input.fire 0, Input.deliver 0 SocketEvent.error,
            Input.deliver 0 (SocketEvent.message ⟨JSValue.object 7, "", ""⟩)]).take 5)).reloads
      = [] :=
  ⟨by decide, (C4_no_trigger_no_reload _ (by decide) 5).1⟩

/-- C5: running the script once, from any host state, adds exactly one connection object and
its URL is the literal "ws://localhost:8000/hot-reload"; on a fresh page that is the only
connection. The run itself records no reload and sets no timer. -/
theorem C5_script_opens_one_connection (h : Host) :
    (script h).sockets = h.sockets ++ [ws] ∧
    (script h).sockets.length = h.sockets.length + 1 ∧
    ws.url = "ws://localhost:8000/hot-reload" ∧
    (script Host.init).sockets.map WebSocket.url = ["ws://localhost:8000/hot-reload"] ∧
    (script h).reloads = h.reloads ∧
    (script h).timers = h.timers ∧
    (script h).scheduled = h.scheduled ∧
    (script Host.init).reloads = [] ∧
    (script Host.init).timers = [] ∧
    (script Host.init).scheduled = [] := by
  refine ⟨rfl, ?_, rfl, rfl, rfl, rfl, rfl, rfl, rfl, rfl⟩
  simp [script]

/-- C6: the close handler does not look at its event or at the history: for any two close
events and any two histories of the loaded page, the handler makes the same calls, a single
timer with delay 1000 whose callback reloads, and delivering the closure adds to the pending
timers exactly that timer, set at the current time. -/
theorem C6_onclose_uniform (e1 e2 : CloseEvent) (t1 t2 : List Input) :
    onclose e1 = onclose e2 ∧
    onclose e1 = [Call.setTimeout [Call.reload] 1000] ∧
    step (run loaded t1) (Input.deliver 0 (SocketEvent.closed e1))
        = exec Origin.handler (run loaded t1) [Call.setTimeout [Call.reload] 1000] ∧
    step (run loaded t2) (Input.deliver 0 (SocketEvent.closed e2))
        = exec Origin.handler (run loaded t2) [Call.setTimeout [Call.reload] 1000] ∧
    (step (run loaded t1) (Input.deliver 0 (SocketEvent.closed e1))).timers
        = (run loaded t1).timers
            ++ [{ callback := [Call.reload], delay := 1000,
                  scheduledAt := (run loaded t1).now }] ∧
    (step (run loaded t2) (Input.deliver 0 (SocketEvent.closed e2))).timers
        = (run loaded t2).timers
            ++ [{ callback := [Call.reload], delay := 1000,
                  scheduledAt := (run loaded t2).now }] := by
  refine ⟨rfl, rfl, ?_, ?_, ?_, ?_⟩
  · rw [step_deliver_zero _ (inv_reachable t1).sockets]; rfl
  · rw [step_deliver_zero _ (inv_reachable t2).sockets]; rfl
  · rw [step_deliver_zero _ (inv_reachable t1).sockets]; rfl
  · rw [step_deliver_zero _ (inv_reachable t2).sockets]; rfl

/-- C7: after the initial run the connection object has exactly two handler slots set,
`onmessage` and `onclose`, holding the two handlers of the script; `onopen` and `onerror`
are empty, so open and error events make no host call. Along every trace the connection
object stays as installed, no data is sent and the connection is never closed by the
script. -/
theorem C7_two_handlers_only (trace : List Input) :
    loaded.sockets = [ws] ∧
    ws.installed = ["onmessage", "onclose"] ∧
    ws.installed.length = 2 ∧
    ws.onopen.isNone = true ∧
    ws.onerror.isNone = true ∧
    dispatch ws SocketEvent.opened = [] ∧
    dispatch ws SocketEvent.error = [] ∧
    (∀ ev : MessageEvent, dispatch ws (SocketEvent.message ev) = onmessage ev) ∧
    (∀ ev : CloseEvent, dispatch ws (SocketEvent.closed ev) = onclose ev) ∧
    (run loaded trace).sockets = [ws] ∧
    (run loaded trace).sent = [] ∧
    (run loaded trace).closeCalls = 0 := by
  refine ⟨rfl, rfl, rfl, rfl, rfl, rfl, rfl, fun _ => rfl, fun _ => rfl, ?_, ?_, ?_⟩
  · exact (inv_reachable trace).sockets
  · exact (inv_reachable trace).sent
  · exact (inv_reachable trace).closeCalls

/-- C8: along every finite trace delivered to the loaded page, the number of reloads invoked
directly by a handler equals the number of message events whose data is "reload", the number
of timers ever set equals the number of close events, and each of those timers has delay
1000. The connection object is never changed, so the calls made for an event are those of
the installed handler on that event alone, whatever came before. -/
theorem C8_trace_counts (trace : List Input) :
    immediateReloads (run loaded trace) = trace.countP Input.isReloadMessage ∧
    (run loaded trace).scheduled.length = trace.countP Input.isClosed ∧
    (∀ t ∈ (run loaded trace).scheduled, t.delay = 1000) ∧
    (∀ e : SocketEvent,
      step (run loaded trace) (Input.deliver 0 e)
        = exec Origin.handler (run loaded trace) (dispatch ws e)) := by
  obtain ⟨h1, h2⟩ := count_run trace loaded inv_loaded
  refine ⟨?_, ?_, ?_, ?_⟩
  · rw [h1]
    show 0 + _ = _
    omega
  · rw [h2]
    show 0 + _ = _
    omega
  · exact fun t ht => ((inv_reachable trace).scheduled t ht).2
  · exact fun e => step_deliver_zero _ (inv_reachable trace).sockets e

end ReloadScript
